import Mathlib

/-!
Verification of the token-optimizer pipeline: a shallow embedding of
`token-optimizer/scripts/03_token_aware.py` (the `TokenAwareOptimizer`
class) and of the orchestration logic in `token-optimizer/pipeline.py`
(`TokenOptimizationPipeline`), together with theorems settling the
specification claims about them.

Texts are modelled as `List Char` (ASCII range; the repository in fact
processes ASCII prompts).  The external tokenizer
(`AutoTokenizer.from_pretrained(model_name)`) is an external collaborator:
it is modelled as an arbitrary function `Tok : String → Nat` giving
`len(tokenizer.encode(text, add_special_tokens=False))`.
-/

/-- Word character of the regex metacharacter `\b` (Python `re`, ASCII
range): alphanumeric or underscore. -/
def wordChar (c : Char) : Bool :=
  c.isAlphanum || c == '_'

/-- `wordChar` lifted to an optional character; absence of a character
(string edge) counts as a non-word position. -/
def isWordO : Option Char → Bool
  | none => false
  | some c => wordChar c

/-- The regex `\b` word boundary holds between two (optional) adjacent
characters exactly when their word-character statuses differ. -/
def boundaryB (a b : Option Char) : Bool :=
  isWordO a != isWordO b

/-- Case-insensitive test that `p` is an initial segment of `t`
(the `re.IGNORECASE` flag on a literal pattern). -/
def ciStarts : List Char → List Char → Bool
  | [], _ => true
  | _ :: _, [] => false
  | p :: ps, t :: ts => (p.toLower == t.toLower) && ciStarts ps ts

/-- Attempt to match the pattern `\b<phrase>\b` (case-insensitive, with
`phrase` taken literally as produced by `re.escape`) at the current
position of `text`, where `prev` is the character immediately before the
current position.  Returns the matched text (original casing) and the
remainder after it.  The empty phrase is rejected; every phrase in the
candidate table is nonempty. -/
def tryMatch (phrase : List Char) (prev : Option Char) (text : List Char) :
    Option (List Char × List Char) :=
  match phrase with
  | [] => none
  | _ :: _ =>
    if ciStarts phrase text
        && boundaryB prev text.head?
        && boundaryB (text.take phrase.length).getLast? (text.drop phrase.length).head?
    then some (text.take phrase.length, text.drop phrase.length)
    else none

/-- Left-to-right scan of `text` for non-overlapping matches of
`\b<phrase>\b`, as performed by both `pattern.findall` and `pattern.sub`
of the Python `re` module: at each position try a match; on success emit
`f matched` into the output, record the matched text, and resume directly
after the match (the boundary check of the next match still looks at the
characters of the original text).  Returns (matched occurrences, rewritten
text).
The recursion is bounded by a fuel argument so that the definition is
structural (and hence evaluates inside the kernel); by `tryMatch_length`
every step consumes at least one character of `text`, so fuel equal to
the length of `text` is always sufficient and the zero-fuel branch is
never reached from `findall` or `subAll`. -/
def subScan (phrase : List Char) (f : List Char → List Char) :
    Nat → Option Char → List Char → List (List Char) × List Char
  | 0, _, _ => ([], [])
  | _ + 1, _, [] => ([], [])
  | fuel + 1, prev, c :: rest =>
    match tryMatch phrase prev (c :: rest) with
    | some (m, after) =>
      let r := subScan phrase f fuel m.getLast? after
      (m :: r.1, f m ++ r.2)
    | none =>
      let r := subScan phrase f fuel (some c) rest
      (r.1, c :: r.2)

/-- `pattern.findall(text)` for the pattern `\b<phrase>\b`: the list of
matched occurrences, in text order, with original casing. -/
def findall (phrase text : List Char) : List (List Char) :=
  (subScan phrase id text.length none text).1

/-- `pattern.sub(f, text)` for the pattern `\b<phrase>\b`: every matched
occurrence `m` is replaced by `f m`. -/
def subAll (phrase : List Char) (f : List Char → List Char) (text : List Char) :
    List Char :=
  (subScan phrase f text.length none text).2

/-- Tokenizer model: `len(self.tokenizer.encode(text, add_special_tokens=False))`.
The tokenizer is an external collaborator loaded by model name; it is
modelled as an arbitrary deterministic function from text to token count. -/
def Tok : Type := String → Nat

/-- `TokenAwareOptimizer._count_tokens` applied through a tokenizer model. -/
def count_tokens (tok : Tok) (text : String) : Nat := tok text

/-- The candidate table `TokenAwareOptimizer.replacement_candidates`
(03_token_aware.py lines 21 to 65), in source (dict insertion) order. -/
def replacement_candidates : List (String × String) :=
  [ ("it is", "it\x27s"),
    ("you are", "you\x27re"),
    ("we are", "we\x27re"),
    ("they are", "they\x27re"),
    ("i am", "i\x27m"),
    ("do not", "don\x27t"),
    ("does not", "doesn\x27t"),
    ("did not", "didn\x27t"),
    ("will not", "won\x27t"),
    ("can not", "can\x27t"),
    ("cannot", "can\x27t"),
    ("should not", "shouldn\x27t"),
    ("would not", "wouldn\x27t"),
    ("could not", "couldn\x27t"),
    ("have not", "haven\x27t"),
    ("has not", "hasn\x27t"),
    ("had not", "hadn\x27t"),
    ("going to", "gonna"),
    ("want to", "wanna"),
    ("got to", "gotta"),
    ("approximately", "~"),
    ("equals", "="),
    ("greater than", ">"),
    ("less than", "<"),
    ("and/or", "or"),
    ("version", "v"),
    ("versus", "vs"),
    ("example", "e.g."),
    ("that is", "i.e."),
    ("et cetera", "etc"),
    ("number", "#"),
    ("basically", ""),
    ("actually", ""),
    ("really", ""),
    ("very", ""),
    ("just", ""),
    ("quite", ""),
    ("rather", "") ]

/-- Value stored in `token_efficient_map` for a kept candidate. -/
structure ReplInfo where
  replacement : String
  savings : Int
  original_tokens : Nat
  replacement_tokens : Nat
deriving Repr, DecidableEq

/-- Token count of a replacement string:
`self._count_tokens(replacement) if replacement else 0` — the empty
string is falsy, so an empty replacement counts as zero tokens. -/
def replTokens (tok : Tok) (r : String) : Nat :=
  if r = "" then 0 else count_tokens tok r

/-- `TokenAwareOptimizer._build_efficient_map` (lines 74 to 91): tokenize
each bare phrase and bare replacement, keep a candidate exactly when
`savings = orig_tokens - repl_tokens` is at least `min_savings`.
The result keeps dict insertion order. -/
def build_efficient_map (tok : Tok) (min_savings : Int) :
    List (String × ReplInfo) :=
  replacement_candidates.filterMap (fun c =>
    let orig_tokens := count_tokens tok c.1
    let repl_tokens := replTokens tok c.2
    let savings : Int := (orig_tokens : Int) - (repl_tokens : Int)
    if min_savings ≤ savings then
      some (c.1, ⟨c.2, savings, orig_tokens, repl_tokens⟩)
    else none)

/-- Stable insertion of `x` in front of the first element whose key does
not exceed the key of `x` (descending order, earlier elements win ties). -/
def insertDescBy (key : α → Int) (x : α) : List α → List α
  | [] => [x]
  | y :: ys =>
    if key y ≤ key x then x :: y :: ys else y :: insertDescBy key x ys

/-- Stable sort in descending key order; models Python
`sorted(..., key=..., reverse=True)` and `list.sort(key=..., reverse=True)`,
which keep the original relative order of equal keys. -/
def sortDescBy (key : α → Int) : List α → List α
  | [] => []
  | x :: xs => insertDescBy key x (sortDescBy key xs)

/-- Python `str.isupper` over the ASCII range: at least one cased
character, and every cased character is upper case. -/
def pyIsUpper (s : List Char) : Bool :=
  s.any Char.isAlpha && s.all (fun c => !c.isAlpha || c.isUpper)

/-- The local `replace_func` of `optimize_text` (lines 126 to 136):
empty replacements pass through as the empty string; a fully upper-case
match upper-cases a replacement of length above one; a match with an
upper-case first character capitalizes only the first character of a
replacement of length above one; otherwise the replacement is used as
specified. -/
def replace_func (replacement matched : List Char) : List Char :=
  if replacement = [] then []
  else if pyIsUpper matched && decide (replacement.length > 1) then
    replacement.map Char.toUpper
  else
    match matched, replacement with
    | m0 :: _, r0 :: rs =>
      if m0.isUpper && decide (rs.length + 1 > 1) then r0.toUpper :: rs
      else r0 :: rs
    | _, _ => replacement

/-- Whitespace class of the regex `\s` (Python `re`, ASCII range). -/
def pyWs (c : Char) : Bool :=
  c == ' ' || c == '\t' || c == '\n' || c == '\r' || c == '\x0b' || c == '\x0c'

/-- Helper for `collapseWs`: `inRun` records whether the previous input
character was whitespace already emitted as the single space of its run. -/
def collapseWsAux : Bool → List Char → List Char
  | _, [] => []
  | inRun, c :: rest =>
    if pyWs c then
      if inRun then collapseWsAux true rest
      else ' ' :: collapseWsAux true rest
    else c :: collapseWsAux false rest

/-- First cleanup: `re.sub(r"\s+", " ", text)` — every maximal run of
whitespace becomes a single space. -/
def collapseWs (l : List Char) : List Char := collapseWsAux false l

/-- The punctuation class of the second cleanup regex. -/
def cleanupPunct (c : Char) : Bool :=
  c == ',' || c == '.' || c == '!' || c == '?' || c == ';' || c == ':'

/-- Helper for `stripWsBeforePunct`: `pending` is the whitespace run read
so far but not yet emitted.  When the run turns out to be directly
followed by one of the punctuation marks, the run is dropped and the scan
resumes after the punctuation mark; otherwise the run is emitted
unchanged. -/
def swpAux (pending : List Char) : List Char → List Char
  | [] => pending
  | c :: rest =>
    if pyWs c then swpAux (pending ++ [c]) rest
    else if cleanupPunct c && !pending.isEmpty then c :: swpAux [] rest
    else pending ++ c :: swpAux [] rest

/-- Second cleanup: `re.sub(r"\s+([,.!?;:])", r"\1", text)` — a maximal
run of whitespace directly followed by one of the punctuation marks is
replaced by the punctuation mark alone; any other whitespace is kept. -/
def stripWsBeforePunct (l : List Char) : List Char := swpAux [] l

/-- Python `str.strip()` over the ASCII range: remove leading and
trailing whitespace. -/
def pyStrip (l : List Char) : List Char :=
  ((l.dropWhile pyWs).reverse.dropWhile pyWs).reverse

/-- The whole cleanup of `optimize_text` lines 150 to 152 plus the
`.strip()` on return (line 154). -/
def cleanup (l : List Char) : List Char :=
  pyStrip (stripWsBeforePunct (collapseWs l))

/-- One entry of the `replacements` list of the statistics dict returned
by `optimize_text`. -/
structure ReplacementMade where
  original : String
  replacement : String
  count : Nat
  tokens_saved : Int
deriving Repr, DecidableEq

/-- The statistics dict returned by `optimize_text` (lines 154 to 159).
Note that `optimized_tokens` is counted on the cleaned but not yet
stripped text, exactly as in the source (the `.strip()` is applied only
to the returned text, after the dict fields are taken from
`optimized_text`). -/
structure OptimizeStats where
  total_tokens_saved : Int
  replacements : List ReplacementMade
  original_tokens : Nat
  optimized_tokens : Nat
deriving Repr, DecidableEq

/-- The in-context re-verification of `optimize_text` (lines 115 to 122):
tokenize the sample occurrence alone (`sample_match`) and its raw
substitution alone (`before_sample = pattern.sub(replacement, sample_match)`),
and take the difference.  Only the sample occurrence and the replacement
string enter this computation. -/
def contextual_savings (tok : Tok) (phrase replacement sample : List Char) :
    Int :=
  (count_tokens tok (String.mk sample) : Int)
    - (count_tokens tok (String.mk (subAll phrase (fun _ => replacement) sample)) : Int)

/-- The body of the `for original, info in sorted_replacements` loop of
`optimize_text` (lines 106 to 148), acting on the accumulator
(current buffer, total savings, replacements made).  For a candidate with
at least one whole-word match, the first match alone and its raw
substitution alone are tokenized; when that contextual savings reaches
`min_savings`, every match is substituted through `replace_func`. -/
def optimizeStep (tok : Tok) (min_savings : Int)
    (acc : List Char × Int × List ReplacementMade)
    (e : String × ReplInfo) : List Char × Int × List ReplacementMade :=
  let buf := acc.1
  let total := acc.2.1
  let made := acc.2.2
  let phrase := e.1.data
  let replacement := e.2.replacement.data
  let occs := findall phrase buf
  match occs with
  | [] => (buf, total, made)
  | sample :: _ =>
    let actual_savings := contextual_savings tok phrase replacement sample
    if min_savings ≤ actual_savings then
      (subAll phrase (replace_func replacement) buf,
       total + actual_savings * occs.length,
       made ++ [⟨e.1, e.2.replacement, occs.length,
                actual_savings * occs.length⟩])
    else (buf, total, made)

/-- The replacement loop of `optimize_text`: fold `optimizeStep` over the
efficient map sorted by precomputed savings, highest first (lines 102 to
104), starting from the input text and an empty report. -/
def optimizeLoop (tok : Tok) (min_savings : Int) (text : String) :
    List Char × Int × List ReplacementMade :=
  (sortDescBy (fun e => e.2.savings) (build_efficient_map tok min_savings)).foldl
    (optimizeStep tok min_savings) (text.data, 0, [])

/-- `TokenAwareOptimizer.optimize_text` (lines 93 to 159): run the
replacement loop, apply the whitespace cleanup unconditionally, and
return the stripped text together with the statistics dict. -/
def optimize_text (tok : Tok) (min_savings : Int) (text : String) :
    String × OptimizeStats :=
  let r := optimizeLoop tok min_savings text
  let cleaned := stripWsBeforePunct (collapseWs r.1)
  (String.mk (pyStrip cleaned),
   ⟨r.2.1, r.2.2, count_tokens tok text, count_tokens tok (String.mk cleaned)⟩)

/-- One entry of the list returned by `analyze_text` (lines 172 to 180). -/
structure AnalyzeEntry where
  phrase : String
  suggested : String
  occurrences : Nat
  tokens_per_occurrence : Int
  total_savings : Int
deriving Repr, DecidableEq

/-- `TokenAwareOptimizer.analyze_text` (lines 161 to 185): for every
entry of the efficient map whose phrase has at least one whole-word
match in `text`, report the precomputed savings per occurrence and its
product with the occurrence count; sort by `total_savings` descending.
The input text is only read, never written. -/
def analyze_text (tok : Tok) (min_savings : Int) (text : String) :
    List AnalyzeEntry :=
  sortDescBy (fun e => e.total_savings)
    ((build_efficient_map tok min_savings).filterMap (fun e =>
      let occs := findall e.1.data text.data
      if occs.isEmpty then none
      else some ⟨e.1, e.2.replacement, occs.length, e.2.savings,
                 e.2.savings * (occs.length : Int)⟩))

/-- Observable outcome of one stage subprocess
(`subprocess.run(cmd, input=..., capture_output=True, text=True, check=True)`
in `TokenOptimizationPipeline.run_stage`): either the script exits with
status 0 and stdout `output`, or it exits nonzero (also when the script
path does not exist, in which case the interpreter exits with status 2)
and `check=True` raises `CalledProcessError` carrying `stderr`. -/
inductive StageOutcome where
  | success (output : String)
  | failure (stderr : String)
deriving Repr, DecidableEq

/-- `TokenOptimizationPipeline.run_stage` (pipeline.py lines 41 to 78):
a disabled stage returns its input unchanged; a successful stage returns
the stdout of the subprocess; on `CalledProcessError` the failure is
logged to stderr and the original input is returned.  The function is
total: no outcome of the stage subprocess escapes as an exception. -/
def run_stage (enabled : Bool) (outcome : StageOutcome) (input_text : String) :
    String :=
  if !enabled then input_text
  else
    match outcome with
    | .success output => output
    | .failure _ => input_text

/-- The stage sequence of `run_pipeline` (pipeline.py lines 87 to 133):
the buffer is threaded through `run_stage` for each configured stage,
each stage given by its enabled flag and its subprocess outcome. -/
def run_stages (stages : List (Bool × StageOutcome)) (input_text : String) :
    String :=
  stages.foldl (fun buf s => run_stage s.1 s.2 buf) input_text

/-- The final statistics of `TokenOptimizationPipeline.run_pipeline`
(pipeline.py lines 136 to 143).  Python evaluates
`(1 - final_tokens/original_tokens) * 100`; when `original_tokens == 0`
the division raises `ZeroDivisionError`, modelled as `Except.error`.
Exact rational arithmetic stands in for Python floats; the claim at issue
concerns only definedness in the zero case. -/
def run_pipeline_reduction_pct (original_tokens final_tokens : Nat) :
    Except String ℚ :=
  if original_tokens = 0 then Except.error "ZeroDivisionError"
  else Except.ok ((1 - (final_tokens : ℚ) / (original_tokens : ℚ)) * 100)

/-- The final statistics of `VerboseTokenOptimizationPipeline.run_pipeline`
(pipeline_verbose.py line 268):
`reduction_pct = (total_reduction / original_tokens * 100) if original_tokens > 0 else 0`,
with `total_reduction = original_tokens - final_tokens` as Python
integers. -/
def verbose_reduction_pct (original_tokens final_tokens : Nat) : ℚ :=
  if 0 < original_tokens then
    ((original_tokens : ℚ) - (final_tokens : ℚ)) / (original_tokens : ℚ) * 100
  else 0

/-- Observable outcome of the analyzer subprocess launched by
`TokenOptimizationPipeline.analyze_text` (pipeline.py line 160): the exit
code, and the result of `json.loads` on its stdout — `none` when the
structured output is not parseable. -/
structure ProcResult where
  returncode : Int
  stdout_parse : Option (List AnalyzeEntry)
deriving Repr, DecidableEq

/-- `TokenOptimizationPipeline.analyze_text` (pipeline.py lines 147 to
181): when the analyzer exits with status 0 the code calls
`json.loads(result.stdout)` with no exception handler, so an unparseable
stdout raises `json.JSONDecodeError` (modelled as `Except.error`); a
nonzero exit status skips the whole reporting block and the method
returns `None` (modelled as `Except.ok none`). -/
def pipeline_analyze_text (result : ProcResult) :
    Except String (Option (List AnalyzeEntry)) :=
  if result.returncode = 0 then
    match result.stdout_parse with
    | some opts => Except.ok (some opts)
    | none => Except.error "json.JSONDecodeError"
  else Except.ok none

/-- A concrete tokenizer instance used for witnesses and
counterexamples: one token per character. -/
def lenTok : Tok := fun s => s.length

/-- Python `replacement[0].upper() + replacement[1:]` for a nonempty
replacement (and the empty string for an empty one). -/
def capFirst : List Char → List Char
  | [] => []
  | c :: cs => c.toUpper :: cs

/-- No two adjacent characters of the list are both whitespace. -/
def noWsWs : List Char → Bool
  | a :: b :: rest => !(pyWs a && pyWs b) && noWsWs (b :: rest)
  | _ => true

/-- Every successful match consumes at least one character: this is the
fact that makes length-many fuel sufficient in `subScan`. -/
theorem tryMatch_length {phrase : List Char} {prev : Option Char}
    {text m after : List Char} (h : tryMatch phrase prev text = some (m, after)) :
    after.length < text.length := by
  match phrase, text with
  | [], _ => simp [tryMatch] at h
  | p :: ps, [] => simp [tryMatch, ciStarts] at h
  | p :: ps, t :: ts =>
    simp only [tryMatch] at h
    split at h
    · cases h
      simp only [List.length_drop, List.length_cons]
      omega
    · cases h

theorem mem_insertDescBy {key : α → Int} {x a : α} {l : List α} :
    a ∈ insertDescBy key x l ↔ a = x ∨ a ∈ l := by
  induction l with
  | nil => simp [insertDescBy]
  | cons y ys ih =>
    simp only [insertDescBy]
    split
    · simp [List.mem_cons]
    · simp only [List.mem_cons, ih]
      tauto

theorem mem_sortDescBy {key : α → Int} {a : α} {l : List α} :
    a ∈ sortDescBy key l ↔ a ∈ l := by
  induction l with
  | nil => simp [sortDescBy]
  | cons x xs ih =>
    simp only [sortDescBy, mem_insertDescBy, ih, List.mem_cons]

theorem pairwise_insertDescBy {key : α → Int} {x : α} {l : List α}
    (h : l.Pairwise (fun a b => key b ≤ key a)) :
    (insertDescBy key x l).Pairwise (fun a b => key b ≤ key a) := by
  induction l with
  | nil => simp [insertDescBy]
  | cons y ys ih =>
    rcases List.pairwise_cons.mp h with ⟨hy, hys⟩
    simp only [insertDescBy]
    split
    · rename_i hle
      refine List.pairwise_cons.mpr ⟨?_, h⟩
      intro b hb
      rcases List.mem_cons.mp hb with rfl | hb
      · exact hle
      · exact le_trans (hy b hb) hle
    · rename_i hgt
      push_neg at hgt
      refine List.pairwise_cons.mpr ⟨?_, ih hys⟩
      intro b hb
      rcases mem_insertDescBy.mp hb with rfl | hb
      · exact le_of_lt hgt
      · exact hy b hb

theorem pairwise_sortDescBy {key : α → Int} {l : List α} :
    (sortDescBy key l).Pairwise (fun a b => key b ≤ key a) := by
  induction l with
  | nil => simp [sortDescBy]
  | cons x xs ih => exact pairwise_insertDescBy ih

theorem mem_build_efficient_map {tok : Tok} {min_savings : Int}
    {o : String} {info : ReplInfo} :
    (o, info) ∈ build_efficient_map tok min_savings ↔
      ∃ r, (o, r) ∈ replacement_candidates ∧
        min_savings ≤ (count_tokens tok o : Int) - (replTokens tok r : Int) ∧
        info = ⟨r, (count_tokens tok o : Int) - (replTokens tok r : Int),
                count_tokens tok o, replTokens tok r⟩ := by
  unfold build_efficient_map
  rw [List.mem_filterMap]
  constructor
  · rintro ⟨⟨p, r⟩, hmem, hf⟩
    simp only at hf
    split at hf
    · rw [Option.some.injEq, Prod.mk.injEq] at hf
      obtain ⟨rfl, rfl⟩ := hf
      rename_i hcond
      exact ⟨r, hmem, hcond, rfl⟩
    · cases hf
  · rintro ⟨r, hmem, hcond, rfl⟩
    refine ⟨(o, r), hmem, ?_⟩
    simp only
    rw [if_pos hcond]

/-- The phrases of the candidate table are pairwise distinct, so a phrase
determines its replacement. -/
theorem candidates_fun :
    ∀ x ∈ replacement_candidates, ∀ y ∈ replacement_candidates,
      x.1 = y.1 → x.2 = y.2 := by decide

set_option maxRecDepth 100000

/-- C1: the spec says the final pipeline summary reports a percentage
reduction of 0 when `original_tokens == 0`, avoiding division by zero.
`TokenOptimizationPipeline.run_pipeline` (pipeline.py line 141) instead
evaluates `(1 - final_tokens/original_tokens) * 100` unguarded and raises
`ZeroDivisionError` on any input with token count 0, while the sibling
orchestrator `VerboseTokenOptimizationPipeline` (pipeline_verbose.py line
268) guards the division exactly as the spec describes and reports 0.
This theorem evaluates both final-summary computations at
`original_tokens = 0`. -/
theorem C1_zero_token_final_summary (final_tokens : Nat) :
    run_pipeline_reduction_pct 0 final_tokens =
      Except.error "ZeroDivisionError" ∧
    verbose_reduction_pct 0 final_tokens = 0 :=
  ⟨rfl, rfl⟩

/-- C2 counterexample: an analyzer response with exit status 0 whose
structured output is not parseable makes the orchestrator analyze entry
point raise an uncaught `json.JSONDecodeError` instead of returning
normally as "no optimizations found". -/
theorem C2_counterexample :
    pipeline_analyze_text ⟨0, none⟩ = Except.error "json.JSONDecodeError" :=
  rfl

/-- C2 (amended): the analyze entry point treats an analyzer failure
signalled by a nonzero exit status as no result and returns normally;
but a response with exit status 0 whose structured output is not
parseable raises an uncaught JSON parse error. -/
theorem C2_amended_malformed_analyze (r : ProcResult) :
    (r.returncode ≠ 0 → pipeline_analyze_text r = Except.ok none) ∧
    (r.returncode = 0 → r.stdout_parse = none →
      pipeline_analyze_text r = Except.error "json.JSONDecodeError") := by
  constructor
  · intro h
    simp [pipeline_analyze_text, h]
  · intro h0 hp
    simp [pipeline_analyze_text, h0, hp]

/-- C2 witness: the amended claim evaluated at a failing analyzer
response with exit status 1. -/
theorem C2_amended_witness :
    pipeline_analyze_text ⟨1, none⟩ = Except.ok none :=
  (C2_amended_malformed_analyze ⟨1, none⟩).1 (by decide)

/-- C6: a failing stage transform (`CalledProcessError`, which also
covers an unreachable script: the interpreter exits nonzero) makes
`run_stage` return its original input unchanged without raising, and the
pipeline continues with the remaining stages unaffected. -/
theorem C6_stage_failure_passthrough (input_text err : String)
    (rest : List (Bool × StageOutcome)) :
    run_stage true (.failure err) input_text = input_text ∧
    run_stages ((true, .failure err) :: rest) input_text =
      run_stages rest input_text :=
  ⟨rfl, rfl⟩

/-- C3: at construction, a candidate contributes an entry of the
efficient map exactly when
`savings = tokens(phrase) - tokens(replacement)` (an empty replacement
counting as zero tokens, see `replTokens`) is at least `min_savings`;
consequently every entry of the built map satisfies
`savings >= min_savings`. -/
theorem C3_build_savings_threshold (tok : Tok) (min_savings : Int) :
    (∀ e ∈ build_efficient_map tok min_savings, min_savings ≤ e.2.savings) ∧
    (∀ o r, (o, r) ∈ replacement_candidates →
      ((o, (⟨r, (count_tokens tok o : Int) - (replTokens tok r : Int),
            count_tokens tok o, replTokens tok r⟩ : ReplInfo)) ∈
          build_efficient_map tok min_savings ↔
        min_savings ≤ (count_tokens tok o : Int) - (replTokens tok r : Int))) := by
  constructor
  · rintro ⟨o, info⟩ he
    rcases mem_build_efficient_map.mp he with ⟨r, _, hcond, rfl⟩
    exact hcond
  · intro o r hor
    constructor
    · intro hmem
      rcases mem_build_efficient_map.mp hmem with ⟨r', _, hcond, heq⟩
      have hr : r = r' := congrArg ReplInfo.replacement heq
      rw [hr]
      exact hcond
    · intro hcond
      exact mem_build_efficient_map.mpr ⟨r, hor, hcond, rfl⟩

/-- C3 witness: with the one-token-per-character tokenizer and threshold
1, the filler-deletion candidate for the phrase `basically` (9 tokens,
empty replacement counted as 0 tokens) is kept with savings 9. -/
theorem C3_build_savings_threshold_witness :
    ((1 : Int) ≤ (ReplInfo.mk "" 9 9 0).savings) ∧
    (("basically",
        (⟨"", (count_tokens lenTok "basically" : Int)
                - (replTokens lenTok "" : Int),
          count_tokens lenTok "basically", replTokens lenTok ""⟩ : ReplInfo)) ∈
      build_efficient_map lenTok 1) :=
  ⟨(C3_build_savings_threshold lenTok 1).1 ("basically", ⟨"", 9, 9, 0⟩)
      (by decide),
   ((C3_build_savings_threshold lenTok 1).2 "basically" "" (by decide)).mpr
      (by decide)⟩

/-- Unfolding of `replace_func` on nonempty arguments. -/
theorem replace_func_cons (r0 m0 : Char) (rs mrest : List Char) :
    replace_func (r0 :: rs) (m0 :: mrest) =
      if pyIsUpper (m0 :: mrest) && decide ((r0 :: rs).length > 1)
      then (r0 :: rs).map Char.toUpper
      else if m0.isUpper && decide (rs.length + 1 > 1)
      then r0.toUpper :: rs
      else r0 :: rs := by
  simp only [replace_func]
  rw [if_neg (List.cons_ne_nil r0 rs)]

/-- C5: the case policy of `replace_func` for a substituted occurrence
`m0 :: mrest`: a fully upper-case match upper-cases a replacement longer
than one character; otherwise a match with an upper-case first character
capitalizes only the first character of a replacement longer than one
character; in every other case — including every replacement of length
at most one (hence every empty and every single-character replacement) —
the replacement is used exactly as specified. -/
theorem C5_replacement_case_policy (replacement : List Char) (m0 : Char)
    (mrest : List Char) :
    (pyIsUpper (m0 :: mrest) = true → 1 < replacement.length →
      replace_func replacement (m0 :: mrest) = replacement.map Char.toUpper) ∧
    (pyIsUpper (m0 :: mrest) = false → m0.isUpper = true →
      1 < replacement.length →
      replace_func replacement (m0 :: mrest) = capFirst replacement) ∧
    (replacement.length ≤ 1 →
      replace_func replacement (m0 :: mrest) = replacement) ∧
    (pyIsUpper (m0 :: mrest) = false → m0.isUpper = false →
      replace_func replacement (m0 :: mrest) = replacement) := by
  cases replacement with
  | nil =>
    refine ⟨?_, ?_, ?_, ?_⟩
    · intro _ hlen
      exact absurd hlen (by decide)
    · intro _ _ hlen
      exact absurd hlen (by decide)
    · intro _
      rfl
    · intro _ _
      rfl
  | cons r0 rs =>
    simp only [replace_func_cons]
    refine ⟨?_, ?_, ?_, ?_⟩
    · intro hup hlen
      have h1 : (pyIsUpper (m0 :: mrest)
          && decide ((r0 :: rs).length > 1)) = true := by
        rw [hup]
        simpa using hlen
      rw [if_pos h1]
    · intro hnoup hm hlen
      have h1 : (pyIsUpper (m0 :: mrest)
          && decide ((r0 :: rs).length > 1)) = false := by
        rw [hnoup]
        simp
      have h2 : (m0.isUpper && decide (rs.length + 1 > 1)) = true := by
        rw [hm]
        simp only [Bool.true_and, decide_eq_true_eq]
        simpa using hlen
      rw [if_neg (by simp only [h1]; exact Bool.false_ne_true), if_pos h2]
      rfl
    · intro hlen
      cases rs with
      | nil =>
        simp
      | cons r1 rs' =>
        exact absurd hlen (by simp)
    · intro hnoup hm
      have h1 : (pyIsUpper (m0 :: mrest)
          && decide ((r0 :: rs).length > 1)) = false := by
        rw [hnoup]
        simp
      have h2 : (m0.isUpper && decide (rs.length + 1 > 1)) = false := by
        rw [hm]
        simp
      rw [if_neg (by simp only [h1]; exact Bool.false_ne_true),
         if_neg (by simp only [h2]; exact Bool.false_ne_true)]

/-- C5 witness: the case policy applied to the match `It Is` of the
phrase `it is`: the first character of the replacement is capitalized. -/
theorem C5_replacement_case_policy_witness :
    replace_func "it\x27s".data ('I' :: 't' :: ' ' :: 'I' :: 's' :: []) =
      "It\x27s".data :=
  ((C5_replacement_case_policy "it\x27s".data 'I'
        ('t' :: ' ' :: 'I' :: 's' :: [])).2.1
      (by decide) (by decide) (by decide)).trans (by decide)

/-- C4: inside the optimize loop, for a candidate whose phrase has at
least one whole-word match in the current buffer, the in-context
re-verification uses only the first match (`contextual_savings` tokenizes
the sample occurrence alone and its raw substitution alone); when that
single savings reaches `min_savings`, every match in the buffer is
substituted through the same `replace_func` and one report entry is
recorded whose count covers all matches; otherwise the buffer and report
are left untouched — the decision is uniform over all matches of the
phrase. -/
theorem C4_first_match_reverification (tok : Tok) (min_savings : Int)
    (e : String × ReplInfo) (buf : List Char) (total : Int)
    (made : List ReplacementMade) (m0 : List Char) (ms : List (List Char))
    (hm : findall e.1.data buf = m0 :: ms) :
    (min_savings ≤ contextual_savings tok e.1.data e.2.replacement.data m0 →
      optimizeStep tok min_savings (buf, total, made) e =
        (subAll e.1.data (replace_func e.2.replacement.data) buf,
         total + contextual_savings tok e.1.data e.2.replacement.data m0
                   * ((m0 :: ms).length : Int),
         made ++ [⟨e.1, e.2.replacement, (m0 :: ms).length,
                  contextual_savings tok e.1.data e.2.replacement.data m0
                    * ((m0 :: ms).length : Int)⟩])) ∧
    (contextual_savings tok e.1.data e.2.replacement.data m0 < min_savings →
      optimizeStep tok min_savings (buf, total, made) e =
        (buf, total, made)) := by
  constructor
  · intro h
    simp only [optimizeStep, hm]
    rw [if_pos h]
  · intro h
    simp only [optimizeStep, hm]
    rw [if_neg (not_le.mpr h)]

/-- C4 witness: the in-context decision evaluated on the buffer `It Is`
for the candidate `it is` with the one-token-per-character tokenizer:
the single match is accepted (contextual savings 1) and substituted. -/
theorem C4_first_match_reverification_witness :
    optimizeStep lenTok 1 ("It Is".data, 0, [])
        ("it is", ⟨"it\x27s", 1, 5, 4⟩) =
      ("It\x27s".data, 1, [⟨"it is", "it\x27s", 1, 1⟩]) :=
  ((C4_first_match_reverification lenTok 1 ("it is", ⟨"it\x27s", 1, 5, 4⟩)
        "It Is".data 0 [] "It Is".data [] (by decide)).1
      (by decide)).trans (by decide)

/-- C7 counterexample: the optimizer is not idempotent for match finding.
On the input `it    is` (two words separated by four spaces) the first
run applies no replacement at all, but its whitespace cleanup collapses
the gap and returns `it is`; a second run on that output finds a
whole-word match of the candidate phrase `it is` and (with the
one-token-per-character tokenizer and threshold 1) records a replacement,
contradicting the claim that a second run never finds a match and records
zero replacements. -/
theorem C7_counterexample :
    (optimize_text lenTok 1 "it    is").1 = "it is" ∧
    (optimize_text lenTok 1 "it    is").2.replacements = [] ∧
    findall "it is".data ((optimize_text lenTok 1 "it    is").1).data ≠ [] ∧
    (optimize_text lenTok 1
        ((optimize_text lenTok 1 "it    is").1)).2.replacements ≠ [] :=
  ⟨by decide, by decide, by decide, by decide⟩

/-- C7 (amended): no replacement text of the candidate table contains a
whole-word match of any candidate phrase, so a substitution never itself
re-triggers a pattern; a second optimize run can nevertheless find new
matches created by the whitespace cleanup (see the counterexample). -/
theorem C7_no_replacement_retriggers :
    ∀ c ∈ replacement_candidates, ∀ c2 ∈ replacement_candidates,
      findall c2.1.data c.2.data = [] := by decide

/-- C7 witness: the amended claim evaluated at the replacement text of
`it is` against the pattern of `do not`. -/
theorem C7_no_replacement_retriggers_witness :
    findall "do not".data "it\x27s".data = [] :=
  C7_no_replacement_retriggers ("it is", "it\x27s") (by decide)
    ("do not", "don\x27t") (by decide)

/-- A boundary against a word character on its right forces a non-word
position on its left. -/
theorem not_word_of_boundary_left {a : Option Char} {t : Char}
    (hb : boundaryB a (some t) = true) (hw : wordChar t = true) :
    isWordO a = false := by
  simp only [boundaryB] at hb
  rw [show isWordO (some t) = wordChar t from rfl, hw] at hb
  cases h : isWordO a
  · rfl
  · rw [h] at hb
    simp at hb

/-- A boundary against a word character on its left forces a non-word
position on its right. -/
theorem not_word_of_boundary_right {a : Option Char} {t : Char}
    (hb : boundaryB (some t) a = true) (hw : wordChar t = true) :
    isWordO a = false := by
  simp only [boundaryB] at hb
  rw [show isWordO (some t) = wordChar t from rfl, hw] at hb
  cases h : isWordO a
  · rfl
  · rw [h] at hb
    simp at hb

/-- A non-word character is in particular not alphanumeric. -/
theorem not_alnum_of_not_word {c : Char} (h : isWordO (some c) = false) :
    c.isAlphanum = false := by
  rw [show isWordO (some c) = wordChar c from rfl, wordChar] at h
  cases ha : c.isAlphanum
  · rfl
  · rw [ha] at h
    simp at h

/-- C9: matching is whole-word.  Whenever the pattern `\b<phrase>\b`
matches, a character immediately before the match that is alphanumeric is
impossible when the match starts with an alphanumeric character, and a
character immediately after the match that is alphanumeric is impossible
when the match ends with one; in particular `optimize("donut shop")`
leaves `donut` (and the whole text) unaltered, the candidate `do not`
finding no match inside it. -/
theorem C9_whole_word_boundary {phrase : List Char} {prev : Option Char}
    {text m after : List Char}
    (hm : tryMatch phrase prev text = some (m, after)) :
    (∀ c0, m.head? = some c0 → c0.isAlphanum = true →
      ∀ cp, prev = some cp → cp.isAlphanum = false) ∧
    (∀ cl, m.getLast? = some cl → cl.isAlphanum = true →
      ∀ cn, after.head? = some cn → cn.isAlphanum = false) ∧
    (optimize_text lenTok 1 "donut shop").1 = "donut shop" ∧
    findall "do not".data "donut shop".data = [] := by
  cases phrase with
  | nil => simp [tryMatch] at hm
  | cons p ps =>
    simp only [tryMatch] at hm
    split at hm
    · rename_i hguard
      rw [Option.some.injEq, Prod.mk.injEq] at hm
      obtain ⟨hm1, hm2⟩ := hm
      subst hm1
      subst hm2
      rw [Bool.and_eq_true, Bool.and_eq_true] at hguard
      obtain ⟨⟨hci, hb1⟩, hb2⟩ := hguard
      refine ⟨?_, ?_, by decide, by decide⟩
      · intro c0 hc0 halnum cp hcp
        subst hcp
        cases text with
        | nil => simp [ciStarts] at hci
        | cons t ts =>
          rw [List.length_cons, List.take_succ_cons, List.head?_cons,
            Option.some.injEq] at hc0
          subst hc0
          have hw : wordChar t = true := by
            simp [wordChar, halnum]
          have hnw := not_word_of_boundary_left (by simpa using hb1) hw
          exact not_alnum_of_not_word hnw
      · intro cl hcl halnum cn hcn
        rw [hcl] at hb2
        have hw : wordChar cl = true := by
          simp [wordChar, halnum]
        have hnw := not_word_of_boundary_right hb2 hw
        rw [hcn] at hnw
        exact not_alnum_of_not_word hnw
    · cases hm

/-- C9 witness: the whole-word property evaluated on a concrete match of
`do not` in `do not!`, and the donut example. -/
theorem C9_whole_word_boundary_witness :
    ('!').isAlphanum = false ∧
    (optimize_text lenTok 1 "donut shop").1 = "donut shop" :=
  ⟨(@C9_whole_word_boundary "do not".data none "do not!".data "do not".data
        ("!".data) (by decide)).2.1 't' (by decide) (by decide) '!' (by decide),
   (@C9_whole_word_boundary "do not".data none "do not!".data "do not".data
        ("!".data) (by decide)).2.2.1⟩

/-- After an emitted space, `collapseWsAux` skips the rest of the run: a
nonempty result in run mode starts with a non-whitespace character. -/
theorem collapseWsAux_head_not_ws {l : List Char} {c : Char}
    (h : (collapseWsAux true l).head? = some c) : pyWs c = false := by
  induction l with
  | nil => simp [collapseWsAux] at h
  | cons a rest ih =>
    by_cases ha : pyWs a = true
    · rw [collapseWsAux, if_pos ha, if_pos rfl] at h
      exact ih h
    · have ha' : pyWs a = false := by
        cases hb : pyWs a
        · rfl
        · exact absurd hb ha
      rw [collapseWsAux, if_neg (by simp [ha'])] at h
      rw [List.head?_cons, Option.some.injEq] at h
      subst h
      exact ha'

/-- `noWsWs` on a cons in terms of the head of the tail. -/
theorem noWsWs_cons {c : Char} {l : List Char} :
    noWsWs (c :: l) = true ↔
      (∀ x, l.head? = some x → (pyWs c && pyWs x) = false) ∧
        noWsWs l = true := by
  cases l with
  | nil => simp [noWsWs]
  | cons b bs =>
    rw [noWsWs, Bool.and_eq_true]
    constructor
    · rintro ⟨h1, h2⟩
      refine ⟨?_, h2⟩
      intro x hx
      rw [List.head?_cons, Option.some.injEq] at hx
      subst hx
      cases hw : (pyWs c && pyWs b)
      · rfl
      · rw [hw] at h1
        simp at h1
    · rintro ⟨h1, h2⟩
      refine ⟨?_, h2⟩
      have := h1 b (by rw [List.head?_cons])
      rw [this]
      rfl

/-- The first cleanup never leaves two adjacent whitespace characters. -/
theorem noWsWs_collapseWsAux (l : List Char) :
    ∀ b, noWsWs (collapseWsAux b l) = true := by
  induction l with
  | nil =>
    intro b
    rfl
  | cons a rest ih =>
    intro b
    by_cases ha : pyWs a = true
    · cases b
      · rw [collapseWsAux, if_pos ha, if_neg (by simp)]
        rw [noWsWs_cons]
        refine ⟨?_, ih true⟩
        intro x hx
        rw [collapseWsAux_head_not_ws hx]
        rfl
      · rw [collapseWsAux, if_pos ha, if_pos rfl]
        exact ih true
    · have ha' : pyWs a = false := by
        cases hb : pyWs a
        · rfl
        · exact absurd hb ha
      rw [collapseWsAux, if_neg (by simp [ha'])]
      rw [noWsWs_cons]
      refine ⟨?_, ih false⟩
      intro x hx
      rw [ha']
      rfl

/-- C10: the whitespace cleanup of `optimize_text` is applied
unconditionally: for every tokenizer, threshold and input, the returned
text is the stripped, punctuation-tightened, whitespace-collapsed image
of the replacement-loop buffer (first conjunct).  Hence the returned
text can differ from the input even when the replacements list is empty,
as the three concrete runs show (whitespace collapse, whitespace removal
before punctuation, trimming); and the collapse phase indeed never
leaves two adjacent whitespace characters (last conjunct). -/
theorem C10_unconditional_cleanup :
    (∀ (tok : Tok) (min_savings : Int) (text : String),
      (optimize_text tok min_savings text).1 =
        String.mk (pyStrip (stripWsBeforePunct (collapseWs
          (optimizeLoop tok min_savings text).1)))) ∧
    ((optimize_text lenTok 1 "a  b").2.replacements = [] ∧
      (optimize_text lenTok 1 "a  b").1 = "a b") ∧
    ((optimize_text lenTok 1 "x ,  y !").2.replacements = [] ∧
      (optimize_text lenTok 1 "x ,  y !").1 = "x, y!") ∧
    ((optimize_text lenTok 1 "  z  ").2.replacements = [] ∧
      (optimize_text lenTok 1 "  z  ").1 = "z") ∧
    (∀ l : List Char, noWsWs (collapseWs l) = true) :=
  ⟨fun _ _ _ => rfl,
   ⟨by decide, by decide⟩, ⟨by decide, by decide⟩, ⟨by decide, by decide⟩,
   fun l => noWsWs_collapseWsAux l false⟩

/-- C8: the analyze report contains exactly one entry per efficient-map
entry whose phrase has at least one whole-word match in the text, the
entry carrying the precomputed per-occurrence savings (not a contextual
re-verification) and `total_savings = savings * occurrences`; and the
report is sorted by `total_savings` in descending order.  The operation
is a pure function of the text: the input is only read. -/
theorem C8_analyze_report (tok : Tok) (min_savings : Int) (text : String) :
    (∀ a, a ∈ analyze_text tok min_savings text ↔
      ∃ info, (a.phrase, info) ∈ build_efficient_map tok min_savings ∧
        findall a.phrase.data text.data ≠ [] ∧
        a.suggested = info.replacement ∧
        a.occurrences = (findall a.phrase.data text.data).length ∧
        a.tokens_per_occurrence = info.savings ∧
        a.total_savings =
          info.savings * ((findall a.phrase.data text.data).length : Int)) ∧
    (analyze_text tok min_savings text).Pairwise
      (fun a b => b.total_savings ≤ a.total_savings) := by
  constructor
  · intro a
    unfold analyze_text
    rw [mem_sortDescBy, List.mem_filterMap]
    constructor
    · rintro ⟨⟨o, info⟩, hmem, hf⟩
      simp only at hf
      split at hf
      · cases hf
      · rename_i hne
        rw [Option.some.injEq] at hf
        subst hf
        refine ⟨info, hmem, ?_, rfl, rfl, rfl, rfl⟩
        intro hnil
        apply hne
        rw [hnil]
        rfl
    · obtain ⟨aph, asu, aoc, ato, atot⟩ := a
      rintro ⟨info, hmem, hne, h3, h4, h5, h6⟩
      simp only at hmem hne h3 h4 h5 h6 ⊢
      refine ⟨(aph, info), hmem, ?_⟩
      simp only
      rw [if_neg ?_]
      · rw [Option.some.injEq, h3, h4, h5, h6]
      · intro hempty
        apply hne
        cases hfind : findall aph.data text.data with
        | nil => rfl
        | cons x xs =>
          rw [hfind] at hempty
          simp at hempty
  · exact pairwise_sortDescBy

/-- C8 witness: the report characterization and ordering evaluated on a
concrete text with the one-token-per-character tokenizer. -/
theorem C8_analyze_report_witness :
    (analyze_text lenTok 1 "it is very nice").Pairwise
      (fun a b => b.total_savings ≤ a.total_savings) ∧
    (⟨"very", "", 1, 4, 4⟩ : AnalyzeEntry) ∈
      analyze_text lenTok 1 "it is very nice" :=
  ⟨(C8_analyze_report lenTok 1 "it is very nice").2,
   ((C8_analyze_report lenTok 1 "it is very nice").1 ⟨"very", "", 1, 4, 4⟩).mpr
     ⟨⟨"", 4, 4, 0⟩, by decide, by decide, by decide, by decide, by decide,
      by decide⟩⟩
